import Mathlib

/-!
Shallow embedding of `src/heapAlloc.c`, a next-fit heap allocator over one
contiguous region.  Memory is modelled as a word map from absolute byte
addresses to the 4-byte `size_status` word stored there; the C globals
(`heapStart`, `allocsize`, `lastAllocMade`, the static `allocated_once`)
form an explicit state record.  C `int` division truncates toward zero,
so every C `/` and `%` is translated as `Int.tdiv` / `Int.tmod`; the bit
test `x & 1` is the low bit of the two's-complement representation,
i.e. `Int.emod x 2`.  A null pointer is the address 0.
-/

/-- Store the word `v` at byte address `a` (all stores in the C code are
whole `size_status` words). -/
def writeMem (m : Int → Int) (a v : Int) : Int → Int :=
  fun x => if x = a then v else m x

/-- The process-wide allocator state: the address space plus the globals of
`heapAlloc.c`.  `heapStart = 0` and `lastAllocMade = 0` model NULL pointers;
`allocated_once` is the static guard inside `initHeap`. -/
structure AllocState where
  mem : Int → Int
  heapStart : Int
  allocsize : Int
  lastAllocMade : Int
  allocated_once : Int

/-- State at program start: the globals are zero-initialized static storage
(`heapStart = NULL`, `allocsize = 0`, `lastAllocMade = NULL`), the rest of
the address space holds arbitrary words `m`. -/
def initialState (m : Int → Int) : AllocState :=
  { mem := m, heapStart := 0, allocsize := 0, lastAllocMade := 0, allocated_once := 0 }

/-- The block-scanning `while` loop of `allocHeap` (`heapAlloc.c:118-138`).
`cur` is `currentAllocatedBlock`.  The loop condition is
`(cur->size_status & 1) != 0 || (cur->size_status/8)*8 < paddedSize`; the
body increments a counter starting at 0 and returns NULL once
`counter > 5`, advances by the scanned block's size rounded down to a
multiple of 8, and returns NULL when `cur + takenSize` passes
`memoryEnd`.  There is no wrap-around to the region start.  Instead of
the upward-counting C `counter` we carry `remaining = 5 - counter`,
which reaches 0 exactly when the incremented C counter exceeds 5 (entry
counter 5, check `6 > 5`), so the recursion is structural; the initial
call passes `remaining = 5` for `counter = 0`.  Returns the address of
the block found. -/
def allocLoop (m : Int → Int) (paddedSize memoryEnd : Int) (cur : Int) (remaining : Nat) :
    Option Int :=
  if Int.emod (m cur) 2 ≠ 0 ∨ Int.tdiv (m cur) 8 * 8 < paddedSize then
    match remaining with
    | 0 => none
    | r + 1 =>
      if cur + Int.tdiv (m cur) 8 * 8 + Int.tdiv (m cur) 8 * 8 > memoryEnd then none
      else allocLoop m paddedSize memoryEnd (cur + Int.tdiv (m cur) 8 * 8) r
  else some cur

/-- Gas-indexed unfolding of `allocLoop`: the outer `none` means the
loop body was entered more than `gas` times, `some r` that the loop
returned `r` within `gas` unfoldings.  Used to state that the scan
always finishes within a fixed number of iterations. -/
def allocLoopGas (m : Int → Int) (paddedSize memoryEnd : Int) :
    Nat → Int → Nat → Option (Option Int)
  | 0, _, _ => none
  | gas + 1, cur, remaining =>
    if Int.emod (m cur) 2 ≠ 0 ∨ Int.tdiv (m cur) 8 * 8 < paddedSize then
      match remaining with
      | 0 => some none
      | r + 1 =>
        if cur + Int.tdiv (m cur) 8 * 8 + Int.tdiv (m cur) 8 * 8 > memoryEnd then some none
        else allocLoopGas m paddedSize memoryEnd gas (cur + Int.tdiv (m cur) 8 * 8) r
    else some (some cur)

/-- `allocHeap` (`heapAlloc.c:82-266`).  Rejects negative sizes and sizes
above `allocsize`; initializes the next-fit cursor to `heapStart` when it
is still NULL; pads the request to a multiple of 8 (no header word is
added); scans with `allocLoop`; on success writes the split-off footer,
the new free header and the allocated header in the C statement order and
returns the payload address `freeBlock + 4`. -/
def allocHeap (size : Int) (s : AllocState) : Option Int × AllocState :=
  if size < 0 then (none, s)
  else if size > s.allocsize then (none, s)
  else
    let s1 : AllocState :=
      { s with lastAllocMade := if s.lastAllocMade = 0 then s.heapStart else s.lastAllocMade }
    let memoryEnd := s1.heapStart + s1.allocsize
    let remainder := Int.tmod size 8
    let padding := 8 - remainder
    let paddedSize := if remainder ≠ 0 then size + padding else size
    match allocLoop s1.mem paddedSize memoryEnd s1.lastAllocMade 5 with
    | none => (none, s1)
    | some freeBlock =>
      if Int.emod (s1.mem freeBlock) 2 = 0 then
        let freeSize := Int.tdiv (s1.mem freeBlock) 8 * 8
        let m1 := writeMem s1.mem (freeBlock + freeSize - 4) (freeSize - paddedSize)
        let m2 := writeMem m1 (freeBlock + paddedSize) (m1 freeBlock - paddedSize)
        let m3 := writeMem m2 freeBlock (paddedSize + 3)
        (some (freeBlock + 4), { s1 with mem := m3, lastAllocMade := freeBlock })
      else (none, s1)

/-- `freeHeap` (`heapAlloc.c:281-387`).  Validation: NULL, misalignment
(`(int)ptr % 8 != 0`), below `heapStart`, above `heapStart + allocsize`,
already-free header; each returns -1 without touching memory.  Then, in C
statement order: if the next block is allocated, write this block's footer
and clear the next header's p-bit; if the next block is free, grow its
footer by `size - 4`, strip the next header's status bits, and add the
rounded footer value onto this block's header; if this block's p-bit is
clear, find the previous header through the previous footer and grow it;
finally clear this block's a-bit. -/
def freeHeap (ptr : Int) (s : AllocState) : Int × AllocState :=
  if ptr = 0 then (-1, s)
  else if Int.tmod ptr 8 ≠ 0 then (-1, s)
  else if ptr < s.heapStart then (-1, s)
  else if ptr > s.heapStart + s.allocsize then (-1, s)
  else if Int.emod (s.mem (ptr - 4)) 2 = 0 then (-1, s)
  else
    let fbh := ptr - 4
    let sizeOfNewFreeBlock := Int.tdiv (s.mem fbh) 8 * 8
    let nbh := ptr + sizeOfNewFreeBlock - 4
    let m1 :=
      if Int.tmod (Int.tmod (s.mem nbh) 8) 2 = 1 then
        let mA := writeMem s.mem (ptr + sizeOfNewFreeBlock - 8) sizeOfNewFreeBlock
        writeMem mA nbh (mA nbh - 2)
      else s.mem
    let m2 :=
      if Int.tmod (Int.tmod (m1 nbh) 8) 2 = 0 then
        let nbf := nbh + Int.tdiv (m1 nbh) 8 * 8 - 4
        let mB := writeMem m1 nbf (m1 nbf + sizeOfNewFreeBlock - 4)
        let mC := writeMem mB nbh (Int.tdiv (mB nbh) 8 * 8)
        writeMem mC fbh (Int.tdiv (mC nbf) 8 * 8 + mC fbh)
      else m1
    let m3 :=
      if Int.tmod (m2 fbh) 8 < 2 then
        let pf := fbh - 4
        let ph := pf - m2 pf
        writeMem m2 ph (m2 ph + Int.tdiv (m2 fbh) 8 * 8)
      else m2
    let m4 := writeMem m3 fbh (m3 fbh - 1)
    (0, { s with mem := m4 })

/-- `initHeap` (`heapAlloc.c:396-465`).  The external collaborators are
parameters: `pagesize` is `getpagesize()`, `openOk` whether
`open("/dev/zero")` succeeds, `mmapOk` whether `mmap` succeeds, and
`mmapAddr` the page-aligned address `mmap` returns (the mapped range is
zero-filled).  Note the global `allocsize` is assigned before the `open`
and `mmap` checks, exactly as in the C code. -/
def initHeap (pagesize : Int) (openOk mmapOk : Bool) (mmapAddr : Int)
    (sizeOfRegion : Int) (s : AllocState) : Int × AllocState :=
  if s.allocated_once ≠ 0 then (-1, s)
  else if sizeOfRegion ≤ 0 then (-1, s)
  else
    let padsize0 := Int.tmod sizeOfRegion pagesize
    let padsize := Int.tmod (pagesize - padsize0) pagesize
    let s1 := { s with allocsize := sizeOfRegion + padsize }
    if openOk = false then (-1, s1)
    else if mmapOk = false then (-1, { s1 with allocated_once := 0 })
    else
      let mz : Int → Int :=
        fun a => if mmapAddr ≤ a ∧ a < mmapAddr + s1.allocsize then 0 else s1.mem a
      let s2 : AllocState :=
        { mem := mz, heapStart := mmapAddr + 4, allocsize := s1.allocsize - 8,
          lastAllocMade := s1.lastAllocMade, allocated_once := 1 }
      let hs := s2.heapStart
      let asz := s2.allocsize
      let m1 := writeMem s2.mem (hs + asz) 1
      let m2 := writeMem m1 hs asz
      let m3 := writeMem m2 hs (m2 hs + 2)
      let m4 := writeMem m3 (hs + asz - 4) asz
      (0, { s2 with mem := m4 })

/-- Block traversal as performed by `dumpMem` (`heapAlloc.c:499-532`):
walk header to header from `cur`, stripping the two status bits from each
`size_status` to obtain the block size, until the end-mark word 1 is hit;
returns the list of block sizes, or `none` when the walk runs out of fuel
or meets a non-positive size (a heap on which `dumpMem` would not
terminate at the end-mark). -/
def blockSizes (m : Int → Int) : Nat → Int → Option (List Int)
  | 0, _ => none
  | fuel + 1, cur =>
    if m cur = 1 then some []
    else
      let t0 := m cur
      let t1 := if Int.emod t0 2 = 1 then t0 - 1 else t0
      let t2 := if Int.emod (Int.ediv t1 2) 2 = 1 then t1 - 2 else t1
      if t2 ≤ 0 then none
      else
        match blockSizes m fuel (cur + t2) with
        | some l => some (t2 :: l)
        | none => none

/-- States reachable through the public interface: a successful `initHeap`
from program start (`mmap` returns a page-aligned, hence 8-aligned,
address), followed by any sequence of `allocHeap` and `freeHeap` calls. -/
inductive Reachable : AllocState → Prop
  | init (m : Int → Int) (pagesize mmapAddr sizeOfRegion : Int)
      (hpos : 0 < sizeOfRegion) (hma : Int.emod mmapAddr 8 = 0) :
      Reachable (initHeap pagesize true true mmapAddr sizeOfRegion (initialState m)).2
  | alloc (s : AllocState) (n : Int) : Reachable s → Reachable (allocHeap n s).2
  | free (s : AllocState) (p : Int) : Reachable s → Reachable (freeHeap p s).2


/-! ## Concrete states used to evaluate the code

All runs start from program start with a zeroed address space, a page
size of 4096 and `mmap` returning page 8192, so `heapStart = 8196` and
after `initHeap(1024)` the usable region holds `allocsize = 4088` bytes:
one free block (header 4090 at 8196, footer 4088 at 12280) and the
end-mark 1 at 12284. -/

/-- The address space before the program runs: all zero. -/
def memZero : Int → Int := fun _ => 0

/-- State after a successful `initHeap(1024)`. -/
def stFresh : AllocState :=
  (initHeap 4096 true true 8192 1024 (initialState memZero)).2

/-- State after `initHeap(1024)` and `allocHeap(4000)`: one allocated
4000-byte block at 8196 followed by a free 88-byte block at 12196, with
the next-fit cursor on the allocated block. -/
def stAfter4000 : AllocState := (allocHeap 4000 stFresh).2

/-- State after `initHeap(1024)` and `allocHeap(16)`. -/
def stAfter16 : AllocState := (allocHeap 16 stFresh).2

/-- State after `initHeap(1024)`, `allocHeap(16)`, `freeHeap(8200)`:
releasing the only allocated block merges it with the following free
block. -/
def stMerged : AllocState := (freeHeap 8200 stAfter16).2

/-- Three 8-byte allocations at 8196, 8204, 8212. -/
def stThree : AllocState :=
  (allocHeap 8 (allocHeap 8 (allocHeap 8 stFresh).2).2).2

/-- `stThree` after releasing the first block (payload 8200). -/
def stThreeFreeA : AllocState := (freeHeap 8200 stThree).2

/-- `stThreeFreeA` after releasing the middle block (payload 8208): the
release that should have merged backward into the free block at 8196. -/
def stThreeFreeAB : AllocState := (freeHeap 8208 stThreeFreeA).2

/-! ## Helper lemmas -/

/-- `Int.emod` is the function behind `%` on `Int` (used to put goals in
the shape `omega` understands). -/
lemma emod_as_mod (a b : Int) : Int.emod a b = a % b := rfl

/-- Unfolding of `allocLoop` with an exhausted counter budget. -/
lemma allocLoop_zero (m : Int → Int) (ps me cur : Int) :
    allocLoop m ps me cur 0 =
      if Int.emod (m cur) 2 ≠ 0 ∨ Int.tdiv (m cur) 8 * 8 < ps then none
      else some cur := rfl

/-- Unfolding of `allocLoop` with counter budget left. -/
lemma allocLoop_succ (m : Int → Int) (ps me cur : Int) (r : Nat) :
    allocLoop m ps me cur (r + 1) =
      if Int.emod (m cur) 2 ≠ 0 ∨ Int.tdiv (m cur) 8 * 8 < ps then
        if cur + Int.tdiv (m cur) 8 * 8 + Int.tdiv (m cur) 8 * 8 > me then none
        else allocLoop m ps me (cur + Int.tdiv (m cur) 8 * 8) r
      else some cur := rfl

/-- `remaining + 1` gas units always suffice for `allocLoopGas` to
simulate a complete run of `allocLoop`: the loop counter caps the
iteration count. -/
lemma allocLoopGas_spec (m : Int → Int) (ps me : Int) :
    ∀ (gas : Nat) (cur : Int) (remaining : Nat), remaining + 1 ≤ gas →
      allocLoopGas m ps me gas cur remaining = some (allocLoop m ps me cur remaining) := by
  intro gas
  induction gas with
  | zero => intro cur remaining h; omega
  | succ g ih =>
    intro cur remaining h
    cases remaining with
    | zero =>
      simp only [allocLoopGas]
      rw [allocLoop_zero]
      split
      · rfl
      · rfl
    | succ r =>
      simp only [allocLoopGas]
      rw [allocLoop_succ]
      split
      · split
        · rfl
        · exact ih (cur + Int.tdiv (m cur) 8 * 8) r (by omega)
      · rfl

/-- A successful scan lands a multiple of 8 bytes from where it
started: every step advances by a size rounded down to a multiple
of 8. -/
lemma allocLoop_offset (m : Int → Int) (ps me : Int) :
    ∀ (remaining : Nat) (cur fb : Int),
      allocLoop m ps me cur remaining = some fb → Int.emod (fb - cur) 8 = 0 := by
  intro remaining
  induction remaining with
  | zero =>
    intro cur fb h
    rw [allocLoop_zero] at h
    split at h
    · simp at h
    · simp only [Option.some.injEq] at h
      simp only [emod_as_mod, h]
      omega
  | succ r ih =>
    intro cur fb h
    rw [allocLoop_succ] at h
    split at h
    · split at h
      · simp at h
      · have hstep := ih _ _ h
        simp only [emod_as_mod] at hstep ⊢
        omega
    · simp only [Option.some.injEq] at h
      simp only [emod_as_mod, h]
      omega

/-- `freeHeap` never touches `heapStart`, `allocsize` or the next-fit
cursor, whatever branch it takes. -/
lemma freeHeap_frame (p : Int) (s : AllocState) :
    (freeHeap p s).2.heapStart = s.heapStart ∧
    (freeHeap p s).2.allocsize = s.allocsize ∧
    (freeHeap p s).2.lastAllocMade = s.lastAllocMade := by
  unfold freeHeap
  repeat' split
  all_goals exact ⟨rfl, rfl, rfl⟩

/-- `allocHeap` never touches `heapStart` or `allocsize`. -/
lemma allocHeap_frame (n : Int) (s : AllocState) :
    (allocHeap n s).2.heapStart = s.heapStart ∧
    (allocHeap n s).2.allocsize = s.allocsize := by
  simp only [allocHeap]
  repeat' split
  all_goals simp

/-- Where the next-fit cursor can be after a call to `allocHeap`:
unchanged, defaulted to `heapStart`, or the block the scan returned. -/
lemma allocHeap_cursor (n : Int) (s : AllocState) :
    (allocHeap n s).2.lastAllocMade = s.lastAllocMade ∨
    (allocHeap n s).2.lastAllocMade =
      (if s.lastAllocMade = 0 then s.heapStart else s.lastAllocMade) ∨
    ∃ fb, allocLoop s.mem (if Int.tmod n 8 ≠ 0 then n + (8 - Int.tmod n 8) else n)
        (s.heapStart + s.allocsize)
        (if s.lastAllocMade = 0 then s.heapStart else s.lastAllocMade) 5 = some fb ∧
      (allocHeap n s).2.lastAllocMade = fb := by
  simp only [allocHeap]
  split
  · exact Or.inl rfl
  split
  · exact Or.inl rfl
  split
  next heq => exact Or.inr (Or.inl rfl)
  next fb heq =>
    split
    · exact Or.inr (Or.inr ⟨fb, heq, rfl⟩)
    · exact Or.inr (Or.inl rfl)

/-- The payload address returned by a successful `allocHeap` is 4 bytes
past the block found by the scan started at the (defaulted) cursor. -/
lemma allocHeap_some (n p : Int) (s : AllocState) (h : (allocHeap n s).1 = some p) :
    ∃ fb, allocLoop s.mem (if Int.tmod n 8 ≠ 0 then n + (8 - Int.tmod n 8) else n)
        (s.heapStart + s.allocsize)
        (if s.lastAllocMade = 0 then s.heapStart else s.lastAllocMade) 5 = some fb ∧
      p = fb + 4 := by
  simp only [allocHeap] at h
  split at h
  · simp at h
  split at h
  · simp at h
  split at h
  next heq => simp at h
  next fb heq =>
    split at h
    · exact ⟨fb, heq, by simpa using h.symm⟩
    · simp at h

/-- `allocHeap` preserves the cursor alignment invariant: the cursor is
NULL or a multiple of 8 past `heapStart`. -/
lemma allocHeap_align_pres (n : Int) (s : AllocState)
    (hl : s.lastAllocMade = 0 ∨ Int.emod (s.lastAllocMade - s.heapStart) 8 = 0) :
    (allocHeap n s).2.lastAllocMade = 0 ∨
      Int.emod ((allocHeap n s).2.lastAllocMade - (allocHeap n s).2.heapStart) 8 = 0 := by
  obtain ⟨hh, _⟩ := allocHeap_frame n s
  rcases allocHeap_cursor n s with hc | hc | ⟨fb, heq, hc⟩
  · rw [hc, hh]; exact hl
  · rw [hc, hh]
    by_cases hz : s.lastAllocMade = 0
    · rw [if_pos hz]
      right
      simp [emod_as_mod]
    · rw [if_neg hz]
      rcases hl with h0 | h0
      · exact absurd h0 hz
      · exact Or.inr h0
  · rw [hc, hh]
    right
    have hoff := allocLoop_offset _ _ _ _ _ _ heq
    by_cases hz : s.lastAllocMade = 0
    · rw [if_pos hz] at hoff
      simp only [emod_as_mod] at hoff ⊢
      omega
    · rw [if_neg hz] at hoff
      rcases hl with h0 | h0
      · exact absurd h0 hz
      · simp only [emod_as_mod] at hoff h0 ⊢
        omega

/-- On the success path of `initHeap` from program start, `heapStart`
becomes `mmapAddr + 4` (the skipped alignment word) and the next-fit
cursor stays NULL. -/
lemma initHeap_success_state (pg ma sz : Int) (m : Int → Int) (hpos : 0 < sz) :
    (initHeap pg true true ma sz (initialState m)).2.heapStart = ma + 4 ∧
    (initHeap pg true true ma sz (initialState m)).2.lastAllocMade = 0 := by
  unfold initHeap initialState
  rw [if_neg (by simp), if_neg (by omega)]
  exact ⟨rfl, rfl⟩

/-- In every reachable state, `heapStart` is 4 mod 8 (mmap returns an
8-aligned page, and the usable area starts one word in) and the cursor is
NULL or 8-aligned relative to `heapStart`. -/
lemma reachable_align (s : AllocState) (h : Reachable s) :
    Int.emod s.heapStart 8 = 4 ∧
    (s.lastAllocMade = 0 ∨ Int.emod (s.lastAllocMade - s.heapStart) 8 = 0) := by
  induction h with
  | init m pg ma sz hpos hma =>
    obtain ⟨h1, h2⟩ := initHeap_success_state pg ma sz m hpos
    refine ⟨?_, Or.inl h2⟩
    rw [h1]
    simp only [emod_as_mod] at hma ⊢
    omega
  | alloc s n _ ih =>
    obtain ⟨hh, _⟩ := allocHeap_frame n s
    exact ⟨by rw [hh]; exact ih.1, allocHeap_align_pres n s ih.2⟩
  | free s p _ ih =>
    obtain ⟨hh, _, hl⟩ := freeHeap_frame p s
    refine ⟨by rw [hh]; exact ih.1, ?_⟩
    rw [hl, hh]
    exact ih.2

/-! ## Claim theorems -/

/-- C1: the claim says a sufficiently large free block anywhere in the
region is always found because the scan wraps around.  In the reachable
state `stAfter4000` the block at 12196 is free (even header 90) with size
88, large enough for the 8-byte request, yet `allocHeap 8` returns NULL:
the scan gives up at its very first step, because the cursor block is
allocated and `cur + takenSize` (computed with the 4000-byte block's
size) already passes the region end — the scan never wraps. -/
theorem allocHeap_gives_up_despite_free_block :
    Reachable stAfter4000 ∧
    Int.emod (stAfter4000.mem 12196) 2 = 0 ∧
    Int.tdiv (stAfter4000.mem 12196) 8 * 8 = 88 ∧
    (allocHeap 8 stAfter4000).1 = none :=
  ⟨Reachable.alloc _ _ (Reachable.init memZero 4096 8192 1024 (by decide) (by decide)),
   by decide, by decide, by decide⟩

/-- C2: the claim says the created block's size is `header +
roundUp8(requestedSize)`.  Evaluating `allocHeap 8` on the fresh heap:
the header written at 8196 is 11, i.e. a block of total size 8 =
`roundUp8(8)`, not 12 = `header + roundUp8(8)` — the code never adds the
header word, so the caller's 8 payload bytes overlap the next header. -/
theorem allocHeap_block_size_omits_header :
    Reachable stFresh ∧
    (allocHeap 8 stFresh).1 = some 8200 ∧
    (allocHeap 8 stFresh).2.mem 8196 = 11 ∧
    Int.tdiv ((allocHeap 8 stFresh).2.mem 8196) 8 * 8 = 8 :=
  ⟨Reachable.init memZero 4096 8192 1024 (by decide) (by decide),
   by decide, by decide, by decide⟩

/-- C3: the claim says an exact fit (`S == blockSize`) converts the whole
block with no zero-size remainder and just sets the next header's p-bit.
Requesting 4088 bytes from the fresh heap is an exact fit for its single
4088-byte free block, yet the code still splits: it writes the zero-size
free header 2 over the word following the block (here the end-mark at
12284, which held 1) and writes 0 over the old footer at 12280. -/
theorem allocHeap_exact_fit_still_splits :
    Reachable stFresh ∧
    stFresh.mem 12284 = 1 ∧
    (allocHeap 4088 stFresh).1 = some 8200 ∧
    (allocHeap 4088 stFresh).2.mem 12284 = 2 ∧
    (allocHeap 4088 stFresh).2.mem 12280 = 0 :=
  ⟨Reachable.init memZero 4096 8192 1024 (by decide) (by decide),
   by decide, by decide, by decide, by decide⟩

/-- C4: the claim says after every successful release no two adjacent
blocks are both free.  In the reachable state `stThreeFreeAB`, produced
by a `freeHeap` call that returned 0, the block at 8196 is free (header
10, size 8) and the structurally next block at 8204 = 8196 + 8 is also
free (header 8): the backward merge looked for the previous header one
word too low (it added 8 to the word at 8192, below `heapStart`) and
left both blocks free. -/
theorem freeHeap_leaves_adjacent_free_blocks :
    Reachable stThreeFreeAB ∧
    (freeHeap 8208 stThreeFreeA).1 = 0 ∧
    stThreeFreeAB.mem 8196 = 10 ∧
    Int.emod (stThreeFreeAB.mem 8196) 2 = 0 ∧
    8196 + Int.tdiv (stThreeFreeAB.mem 8196) 8 * 8 = 8204 ∧
    stThreeFreeAB.mem 8204 = 8 ∧
    Int.emod (stThreeFreeAB.mem 8204) 2 = 0 ∧
    stThreeFreeAB.mem 8192 = 8 :=
  ⟨Reachable.free _ _ (Reachable.free _ _ (Reachable.alloc _ _ (Reachable.alloc _ _
      (Reachable.alloc _ _ (Reachable.init memZero 4096 8192 1024 (by decide) (by decide)))))),
   by decide, by decide, by decide, by decide, by decide, by decide, by decide⟩

/-- C5: the claim says the traversed block sizes always sum to
`allocsize` (plus the end-mark).  On the fresh heap the traversal indeed
yields [4088] = `allocsize`, but in the reachable state `stMerged`
(release of a 16-byte block that merged with the 4072-byte free
neighbor) the merged header at 8196 records 4098, i.e. size 4096 =
16 + 4072 + 8: the traversal steps over the end-mark at 12284 into
untouched memory and never terminates, so no byte-conserving block list
exists. -/
theorem freeHeap_breaks_conservation :
    Reachable stMerged ∧
    (freeHeap 8200 stAfter16).1 = 0 ∧
    blockSizes stFresh.mem 100 8196 = some [4088] ∧
    stFresh.allocsize = 4088 ∧
    stMerged.mem 8196 = 4098 ∧
    stMerged.allocsize = 4088 ∧
    blockSizes stMerged.mem 100 8196 = none :=
  ⟨Reachable.free _ _ (Reachable.alloc _ _
      (Reachable.init memZero 4096 8192 1024 (by decide) (by decide))),
   by decide, by decide, by decide, by decide, by decide, by decide⟩

/-- C6: the claim says every `requestedSize <= 0` is rejected with no
side effects.  The code only rejects `size < 0`: `allocHeap 0` on the
fresh heap returns the non-null address 8200, overwrites the first
header (4090 becomes 3, an allocated block of size 0) and moves the
next-fit cursor from NULL to 8196. -/
theorem allocHeap_accepts_zero_size :
    Reachable stFresh ∧
    stFresh.mem 8196 = 4090 ∧ stFresh.lastAllocMade = 0 ∧
    (allocHeap 0 stFresh).1 = some 8200 ∧
    (allocHeap 0 stFresh).2.mem 8196 = 3 ∧
    (allocHeap 0 stFresh).2.lastAllocMade = 8196 :=
  ⟨Reachable.init memZero 4096 8192 1024 (by decide) (by decide),
   by decide, by decide, by decide, by decide, by decide⟩

/-- C7: a release request that is NULL, or not a multiple of 8, or below
`heapStart`, or above `heapStart + allocsize`, or whose block header is
already marked free, returns -1 and leaves the entire state (memory,
headers, footers and cursor) unchanged. -/
theorem freeHeap_rejects_invalid_without_mutation (s : AllocState) (ptr : Int)
    (h : ptr = 0 ∨ Int.tmod ptr 8 ≠ 0 ∨ ptr < s.heapStart ∨
         ptr > s.heapStart + s.allocsize ∨ Int.emod (s.mem (ptr - 4)) 2 = 0) :
    freeHeap ptr s = (-1, s) := by
  unfold freeHeap
  split
  · rfl
  next h1 =>
  split
  · rfl
  next h2 =>
  split
  · rfl
  next h3 =>
  split
  · rfl
  next h4 =>
  split
  · rfl
  next h5 =>
  rcases h with h | h | h | h | h
  · exact absurd h h1
  · exact absurd h h2
  · exact absurd h h3
  · exact absurd h h4
  · exact absurd h h5

/-- C7 witness: a double free.  In `stMerged` the block at 8196 is
already free, so releasing its payload address 8200 a second time fails
and leaves the state untouched. -/
theorem freeHeap_rejects_invalid_without_mutation_witness :
    freeHeap 8200 stMerged = (-1, stMerged) :=
  freeHeap_rejects_invalid_without_mutation stMerged 8200
    (Or.inr (Or.inr (Or.inr (Or.inr (by decide)))))

/-- C8 counterexample: when `mmap` fails, `initHeap` returns -1 but has
already overwritten the recorded allocation size: from the start state
(`allocsize = 0`), `initHeap(40)` with a failing `mmap` leaves
`allocsize = 4096`, so the state is not exactly as before the call. -/
theorem initHeap_mmap_failure_mutates_allocsize :
    (initHeap 4096 true false 8192 40 (initialState memZero)).1 = -1 ∧
    (initialState memZero).allocsize = 0 ∧
    (initHeap 4096 true false 8192 40 (initialState memZero)).2.allocsize = 4096 :=
  ⟨by decide, by decide, by decide⟩

/-- C8 amended: every failing path of `initHeap` returns -1; the
double-call and non-positive-size paths mutate nothing at all; the OS
failure paths (open or mmap) leave `heapStart`, the cursor and all of
memory unchanged, but the recorded allocation size has already been set
to the page-rounded request. -/
theorem initHeap_failure_paths (pg : Int) (oOk mOk : Bool) (ma sz : Int) (s : AllocState)
    (h : s.allocated_once ≠ 0 ∨ sz ≤ 0 ∨ oOk = false ∨ mOk = false) :
    (initHeap pg oOk mOk ma sz s).1 = -1 ∧
    (initHeap pg oOk mOk ma sz s).2.heapStart = s.heapStart ∧
    (initHeap pg oOk mOk ma sz s).2.lastAllocMade = s.lastAllocMade ∧
    (initHeap pg oOk mOk ma sz s).2.mem = s.mem ∧
    ((s.allocated_once ≠ 0 ∨ sz ≤ 0) → (initHeap pg oOk mOk ma sz s).2 = s) := by
  unfold initHeap
  split
  next h1 => exact ⟨rfl, rfl, rfl, rfl, fun _ => rfl⟩
  next h1 =>
  split
  next h2 => exact ⟨rfl, rfl, rfl, rfl, fun _ => rfl⟩
  next h2 =>
  split
  next h3 =>
    refine ⟨rfl, rfl, rfl, rfl, fun hc => ?_⟩
    rcases hc with hc | hc
    · exact absurd hc h1
    · exact absurd hc h2
  next h3 =>
  split
  next h4 =>
    refine ⟨rfl, rfl, rfl, rfl, fun hc => ?_⟩
    rcases hc with hc | hc
    · exact absurd hc h1
    · exact absurd hc h2
  next h4 =>
  rcases h with h | h | h | h
  · exact absurd h h1
  · exact absurd h h2
  · exact absurd h h3
  · exact absurd h h4

/-- C8 amended, witness: the mmap-failure instance. -/
theorem initHeap_failure_paths_witness :
    (initHeap 4096 true false 8192 40 (initialState memZero)).1 = -1 ∧
    (initHeap 4096 true false 8192 40 (initialState memZero)).2.heapStart =
      (initialState memZero).heapStart ∧
    (initHeap 4096 true false 8192 40 (initialState memZero)).2.lastAllocMade =
      (initialState memZero).lastAllocMade ∧
    (initHeap 4096 true false 8192 40 (initialState memZero)).2.mem =
      (initialState memZero).mem ∧
    (((initialState memZero).allocated_once ≠ 0 ∨ (40 : Int) ≤ 0) →
      (initHeap 4096 true false 8192 40 (initialState memZero)).2 = initialState memZero) :=
  initHeap_failure_paths 4096 true false 8192 40 (initialState memZero)
    (Or.inr (Or.inr (Or.inr rfl)))

/-- C9: in every state reachable after a successful `initHeap`, every
non-null address returned by `allocHeap` is a multiple of 8: `heapStart`
is 4 mod 8, every scan step is a multiple of 8, and the payload address
is the found header plus 4. -/
theorem allocHeap_returns_aligned (s : AllocState) (n p : Int)
    (hr : Reachable s) (h : (allocHeap n s).1 = some p) : Int.emod p 8 = 0 := by
  obtain ⟨h4, hl⟩ := reachable_align s hr
  obtain ⟨fb, heq, hp⟩ := allocHeap_some n p s h
  have hoff := allocLoop_offset _ _ _ _ _ _ heq
  subst hp
  by_cases hz : s.lastAllocMade = 0
  · rw [if_pos hz] at hoff
    simp only [emod_as_mod] at h4 hoff ⊢
    omega
  · rw [if_neg hz] at hoff
    rcases hl with h0 | h0
    · exact absurd h0 hz
    · simp only [emod_as_mod] at h4 hoff h0 ⊢
      omega

/-- C9 witness: `allocHeap 16` on the fresh heap returns 8200, a
multiple of 8. -/
theorem allocHeap_returns_aligned_witness :
    (allocHeap 16 stFresh).1 = some 8200 ∧ Int.emod 8200 8 = 0 :=
  ⟨by decide, allocHeap_returns_aligned stFresh 16 8200
      (Reachable.init memZero 4096 8192 1024 (by decide) (by decide)) (by decide)⟩

/-- C10: the block scan of `allocHeap` always terminates within a fixed
number of iterations: 6 gas units always complete the loop started with
the initial budget `remaining = 5` (the C counter admits at most 6
entries into the body), and once the budget is exhausted (the C counter
reached 5), the very next non-qualifying block makes the scan return
NULL. -/
theorem allocLoop_bounded_iterations (m : Int → Int) (ps me cur : Int) :
    allocLoopGas m ps me 6 cur 5 = some (allocLoop m ps me cur 5) ∧
    (∀ cur2 : Int, (Int.emod (m cur2) 2 ≠ 0 ∨ Int.tdiv (m cur2) 8 * 8 < ps) →
      allocLoop m ps me cur2 0 = none) := by
  constructor
  · exact allocLoopGas_spec m ps me 6 cur 5 (by omega)
  · intro cur2 hg
    rw [allocLoop_zero, if_pos hg]

/-- C10 witness: on memory holding odd words the scan returns NULL and 6
gas units complete it; with the counter budget exhausted one more
non-qualifying block returns NULL immediately. -/
theorem allocLoop_bounded_iterations_witness :
    allocLoopGas (fun _ => 1) 0 0 6 0 5 = some (allocLoop (fun _ => 1) 0 0 0 5) ∧
    allocLoop (fun _ => 1) 0 0 0 0 = none :=
  ⟨(allocLoop_bounded_iterations (fun _ => 1) 0 0 0).1,
   (allocLoop_bounded_iterations (fun _ => 1) 0 0 0).2 0 (Or.inl (by decide))⟩
